import Mathlib

/-!
Verification development for the Personal_Vehicle_Maintenances repository.

The repository contains two GUI maintenance-reminder engines
(camry_maint_app.py and car_maintenances.py) and a CLI notifier
(maintenance_bot.py).  This file gives a shallow embedding of the
engines' core logic — keyword matching of service history against
rules, selection of the most recent matching event, due projection by
mileage and calendar-month intervals, overdue classification, urgency
metric and ranking — and proves or refutes the specified properties.

Modelling conventions:
* Python floats used for mileages are modelled as integers (every value
  the engines put in them in the properties under study is integral);
* dates are triples of integers with the source's own calendar
  arithmetic (dateutil relativedelta month addition clamps the day to
  the end of the month, exactly as add_months in maintenance_bot.py);
* fallible Python code (int("abc") raising ValueError, strptime
  raising) is embedded with Except / Option;
* Python's list.sort and pandas sort_values are stable sorts; for a
  total preorder the stable sort by a key is unique, so they are
  embedded by the structurally recursive stable insertion sort pySort
  below, which is extensionally that unique stable sort;
* pandas Series.str.contains interprets the keyword as a regular
  expression; every keyword appearing in the claims is free of regex
  metacharacters, for which regex search coincides with literal
  substring containment, which is how the keyword test is embedded.
-/

namespace PVM

variable {α : Type _}

/-- Insert an element into a list, placing it immediately before the
first element that is not strictly below it under the boolean preorder
le.  Elements already in the list that tie with the inserted element
stay before it is wrong -- they come after it, which is what stability
of the overall sort requires, since pySort inserts earlier-listed
elements later. -/
def insertS (le : α → α → Bool) (a : α) : List α → List α
  | [] => [a]
  | b :: t => if le b a && !le a b then b :: insertS le a t else a :: b :: t

/-- Stable sort by the boolean preorder le.  Embeds Python list.sort
and pandas DataFrame.sort_values, which are documented stable sorts:
for a total preorder the stable sort is unique, and pySort is it. -/
def pySort (le : α → α → Bool) : List α → List α
  | [] => []
  | a :: t => insertS le a (pySort le t)

theorem insertS_eq_take_drop (le : α → α → Bool) (a : α) (l : List α) :
    insertS le a l =
      l.takeWhile (fun b => le b a && !le a b) ++
        a :: l.dropWhile (fun b => le b a && !le a b) := by
  induction l with
  | nil => simp [insertS]
  | cons b t ih =>
    by_cases h : (le b a && !le a b) = true
    · simp [insertS, h, List.takeWhile_cons, List.dropWhile_cons, ih]
    · simp [insertS, h, List.takeWhile_cons, List.dropWhile_cons]

theorem insertS_perm (le : α → α → Bool) (a : α) (l : List α) :
    (insertS le a l).Perm (a :: l) := by
  induction l with
  | nil => simp [insertS]
  | cons b t ih =>
    by_cases h : (le b a && !le a b) = true
    · simp only [insertS, if_pos h]
      exact (ih.cons b).trans (List.Perm.swap a b t)
    · simp [insertS, h]

theorem pySort_perm (le : α → α → Bool) (l : List α) :
    (pySort le l).Perm l := by
  induction l with
  | nil => simp [pySort]
  | cons a t ih => exact (insertS_perm le a (pySort le t)).trans (ih.cons a)

theorem insertS_pairwise (le : α → α → Bool)
    (htot : ∀ a b, le a b = true ∨ le b a = true)
    (htrans : ∀ a b c, le a b = true → le b c = true → le a c = true)
    (a : α) (l : List α) (hl : l.Pairwise (fun x y => le x y = true)) :
    (insertS le a l).Pairwise (fun x y => le x y = true) := by
  induction l with
  | nil => simp [insertS]
  | cons b t ih =>
    rcases List.pairwise_cons.1 hl with ⟨hb, ht⟩
    by_cases h : (le b a && !le a b) = true
    · simp only [insertS, if_pos h]
      refine List.pairwise_cons.2 ⟨?_, ih ht⟩
      intro x hx
      have hx' : x ∈ a :: t := (insertS_perm le a t).mem_iff.1 hx
      rcases List.mem_cons.1 hx' with rfl | hx''
      · have h' := h
        rw [Bool.and_eq_true] at h'
        exact h'.1
      · exact hb x hx''
    · simp only [insertS, if_neg h]
      have hab : le a b = true := by
        rcases htot a b with h1 | h1
        · exact h1
        · rcases Bool.eq_false_or_eq_true (le a b) with h2 | h2
          · exact h2
          · exact absurd (by simp [h1, h2]) h
      refine List.pairwise_cons.2 ⟨?_, hl⟩
      intro x hx
      rcases List.mem_cons.1 hx with rfl | hx'
      · exact hab
      · exact htrans a b x hab (hb x hx')

theorem pySort_pairwise (le : α → α → Bool)
    (htot : ∀ a b, le a b = true ∨ le b a = true)
    (htrans : ∀ a b c, le a b = true → le b c = true → le a c = true)
    (l : List α) :
    (pySort le l).Pairwise (fun x y => le x y = true) := by
  induction l with
  | nil => simp [pySort]
  | cons a t ih => exact insertS_pairwise le htot htrans a (pySort le t) ih

theorem pySort_stable (le : α → α → Bool) (c l : List α) (hsub : c.Sublist l)
    (hties : c.Pairwise (fun x y => le x y = true ∧ le y x = true)) :
    c.Sublist (pySort le l) := by
  induction l generalizing c with
  | nil =>
    have hc : c = [] := by simpa using hsub
    subst hc
    simp [pySort]
  | cons x xs ih =>
    have hsplit : pySort le (x :: xs) =
        (pySort le xs).takeWhile (fun b => le b x && !le x b) ++
          x :: (pySort le xs).dropWhile (fun b => le b x && !le x b) := by
      simp [pySort, insertS_eq_take_drop]
    cases hsub with
    | cons _ h =>
      have hc : c.Sublist (pySort le xs) := ih c h hties
      rw [hsplit]
      refine hc.trans ?_
      conv_lhs =>
        rw [← List.takeWhile_append_dropWhile (fun b => le b x && !le x b)
              (pySort le xs)]
      exact List.Sublist.append_left
        (List.Sublist.cons x (List.Sublist.refl _)) _
    | cons₂ _ h =>
      rename_i c'
      rcases List.pairwise_cons.1 hties with ⟨hx, ht⟩
      have hc' : c'.Sublist (pySort le xs) := ih c' h ht
      rw [← List.takeWhile_append_dropWhile (fun b => le b x && !le x b)
            (pySort le xs)] at hc'
      rcases List.sublist_append_iff.1 hc' with ⟨l₁, l₂, hceq, h1, h2⟩
      have hl₁ : l₁ = [] := by
        cases l₁ with
        | nil => rfl
        | cons y t =>
          exfalso
          have hyTW : y ∈ (pySort le xs).takeWhile
              (fun b => le b x && !le x b) :=
            h1.subset (List.mem_cons_self y t)
          have hp := List.mem_takeWhile_imp hyTW
          have hyC : y ∈ c' := by
            rw [hceq]; exact List.mem_append_left l₂ (List.mem_cons_self y t)
          have hxy := hx y hyC
          rw [Bool.and_eq_true] at hp
          simp [hxy.1] at hp
      subst hl₁
      simp only [List.nil_append] at hceq
      subst hceq
      rw [hsplit]
      refine List.Sublist.trans ?_
        (List.sublist_append_right
          ((pySort le xs).takeWhile (fun b => le b x && !le x b)) _)
      exact List.Sublist.cons₂ x h2

theorem sPairwise_getLast_max (le : α → α → Bool)
    (htot : ∀ a b, le a b = true ∨ le b a = true)
    {l : List α} {x : α}
    (hsorted : l.Pairwise (fun u v => le u v = true))
    (hx : l.getLast? = some x) : ∀ y ∈ l, le y x = true := by
  rcases List.getLast?_eq_some_iff.1 hx with ⟨ys, rfl⟩
  intro y hy
  rcases List.mem_append.1 hy with h | h
  · have hparts := List.pairwise_append.1 hsorted
    exact hparts.2.2 y h x (List.mem_singleton_self x)
  · rcases List.mem_singleton.1 h with rfl
    rcases htot y y with h1 | h1 <;> exact h1

/-- Lowercase a string (models Python str.lower on the ASCII service
descriptions and keywords the engines handle; normalize_services builds
the service_norm column this way in both GUI engines). -/
def pyLower (s : String) : String := ⟨s.data.map Char.toLower⟩

/-- Whitespace test for the characters Python str.strip removes from
the configuration values in play. -/
def isSpaceChar (c : Char) : Bool :=
  c == ' ' || c == '\t' || c == '\n' || c == '\r'

/-- Models Python str.strip: drop leading and trailing whitespace. -/
def pyStrip (s : String) : String :=
  ⟨((s.data.dropWhile isSpaceChar).reverse.dropWhile isSpaceChar).reverse⟩

/-- Substring containment on character lists: the pattern occurs
contiguously inside the subject.  This embeds pandas
Series.str.contains(kw) for a keyword free of regex metacharacters,
for which regular-expression search is literal containment. -/
def containsSub (pat : List Char) : List Char → Bool
  | [] => pat.isEmpty
  | c :: t => pat.isPrefixOf (c :: t) || containsSub pat t

/-- String-level substring test. -/
def strContains (s pat : String) : Bool := containsSub pat.data s.data

/-- Lexicographic comparison of character lists by code point, as
Python compares strings (maintenance_bot compares ISO date strings this
way when picking the latest service). -/
def listLt : List Char → List Char → Bool
  | [], [] => false
  | [], _ :: _ => true
  | _ :: _, [] => false
  | a :: s, b :: t => if a < b then true else if b < a then false else listLt s t

/-- Python string less-than. -/
def strLt (a b : String) : Bool := listLt a.data b.data

/-- A calendar date, as datetime.date holds it. -/
structure Date where
  year : Int
  month : Int
  day : Int
deriving DecidableEq, Repr

/-- Gregorian leap-year test, as written out in
maintenance_bot.add_months and used by the standard calendar the GUI
engines rely on. -/
def isLeap (y : Int) : Bool :=
  y.emod 4 == 0 && (y.emod 100 != 0 || y.emod 400 == 0)

/-- Length of a month. -/
def daysInMonth (y m : Int) : Int :=
  if m == 2 then (if isLeap y then 29 else 28)
  else if m == 4 || m == 6 || m == 9 || m == 11 then 30
  else 31

/-- Calendar month addition with the day clamped to the last valid day
of the resulting month: the behaviour of dateutil relativedelta with
months=+n used by both GUI engines, and literally the arithmetic of
add_months in maintenance_bot.py, whose Python floor division and
modulus are Int.fdiv and Int.emod. -/
def addMonths (d : Date) (m : Int) : Date :=
  let total := d.month - 1 + m
  let y := d.year + total.fdiv 12
  let mo := total.emod 12 + 1
  { year := y, month := mo, day := min d.day (daysInMonth y mo) }

/-- Day number of a proleptic Gregorian date (floor-division rata-die
form); Python date subtraction (a - b).days is the difference of these
numbers. -/
def toDayNumber (d : Date) : Int :=
  let y := if d.month ≤ 2 then d.year - 1 else d.year
  let mp := (d.month + 9).emod 12
  let doy := (153 * mp + 2).fdiv 5 + d.day - 1
  365 * y + y.fdiv 4 - y.fdiv 100 + y.fdiv 400 + doy - 719468

/-- Whole-day difference (a - b).days between two dates. -/
def daysBetween (a b : Date) : Int := toDayNumber a - toDayNumber b

/-- Chronological strict order on dates; datetime.date compares
lexicographically on (year, month, day). -/
def dateLt (a b : Date) : Bool :=
  decide (a.year < b.year ∨ (a.year = b.year ∧
    (a.month < b.month ∨ (a.month = b.month ∧ a.day < b.day))))

/-- Parse a digit run as a number: none unless nonempty and all
digits. -/
def digitsToNatAux : List Char → Nat → Option Nat
  | [], acc => some acc
  | c :: t, acc =>
    if c.isDigit then digitsToNatAux t (acc * 10 + (c.toNat - 48)) else none

/-- Numeric value of a nonempty digit run. -/
def digitsToNat (l : List Char) : Option Nat :=
  if l.isEmpty then none else digitsToNatAux l 0

/-- Split a character list on a separator character. -/
def splitOnChar (sep : Char) : List Char → List (List Char)
  | [] => [[]]
  | c :: t =>
    let r := splitOnChar sep t
    if c == sep then [] :: r
    else
      match r with
      | [] => [[c]]
      | h :: t' => (c :: h) :: t'

/-- Range validation strptime performs: month 1..12, day within the
month, year within datetime's supported range. -/
def mkValidDate (y m d : Nat) : Option Date :=
  if 1 ≤ y ∧ y ≤ 9999 ∧ 1 ≤ m ∧ m ≤ 12 ∧ 1 ≤ d ∧
      (d : Int) ≤ daysInMonth (y : Int) (m : Int)
  then some { year := (y : Int), month := (m : Int), day := (d : Int) }
  else none

/-- Models parse_date_us of both GUI engines: strptime with the
month/day/year pattern wrapped in try/except, so failure is none.  The
month and day fields take one or two digits and the year exactly four,
as CPython's strptime regexes for those directives do. -/
def parse_date_us (s : String) : Option Date :=
  match splitOnChar '/' s.data with
  | [ms, ds, ys] =>
    if ms.length ≤ 2 ∧ ds.length ≤ 2 ∧ ys.length = 4 then
      match digitsToNat ms, digitsToNat ds, digitsToNat ys with
      | some m, some d, some y => mkValidDate y m d
      | _, _, _ => none
    else none
  | _ => none

/-- The ISO year-month-day pattern, as maintenance_bot.parse_date and
the second branch of parse_flexible_date read it. -/
def parseISO (s : String) : Option Date :=
  match splitOnChar '-' s.data with
  | [ys, ms, ds] =>
    if ys.length = 4 ∧ ms.length ≤ 2 ∧ ds.length ≤ 2 then
      match digitsToNat ys, digitsToNat ms, digitsToNat ds with
      | some y, some m, some d => mkValidDate y m d
      | _, _, _ => none
    else none
  | _ => none

/-- Models parse_flexible_date in car_maintenances.py: falsy input is
None, otherwise try month/day/year then the ISO pattern. -/
def parse_flexible_date (s : String) : Option Date :=
  if s == "" then none
  else
    match parse_date_us s with
    | some d => some d
    | none => parseISO s

/-- Zero-padded two-digit rendering for strftime fields. -/
def pad2 (n : Int) : String := if n < 10 then "0" ++ toString n else toString n

/-- Four-digit year rendering. -/
def pad4 (n : Int) : String :=
  if n < 10 then "000" ++ toString n
  else if n < 100 then "00" ++ toString n
  else if n < 1000 then "0" ++ toString n
  else toString n

/-- strftime with the month/day/year pattern, used when
car_maintenances renders a baseline date back to text. -/
def fmtUS (d : Date) : String :=
  pad2 d.month ++ "/" ++ pad2 d.day ++ "/" ++ pad4 d.year

/-- One row of the service-history table (date text, mileage, service
description, note).  Mileage is optional since the CSV may miss it;
numeric mileages are modelled as integers. -/
structure Event where
  date : String
  mileage : Option Int
  service : String
  note : String := ""
deriving DecidableEq, Repr

/-- A YAML scalar as the schedule files can supply for interval and
baseline-mileage fields: absent/null, an integer, or a string. -/
inductive YVal where
  | none
  | int (n : Int)
  | str (s : String)
deriving DecidableEq, Repr

/-- Python truthiness of such a scalar. -/
def YVal.falsy : YVal → Bool
  | .none => true
  | .int n => n == 0
  | .str s => s == ""

/-- Models the expression (x or 0). -/
def YVal.orZero (v : YVal) : YVal := if v.falsy then .int 0 else v

/-- Parse an optionally signed integer literal, as Python int()
accepts on a string. -/
def parseIntStr (s : String) : Option Int :=
  match s.data with
  | '-' :: t => (digitsToNat t).map (fun n => -(n : Int))
  | l => (digitsToNat l).map (fun n => (n : Int))

/-- Models Python int(v): identity on integers, literal parsing on
strings with ValueError on failure, TypeError on None. -/
def pyInt : YVal → Except String Int
  | .int n => .ok n
  | .str s =>
    match parseIntStr s with
    | some n => .ok n
    | none => .error "ValueError"
  | .none => .error "TypeError"

/-- Models float(v) wrapped in try/except returning None, as
car_maintenances reads the baseline mileage; values are integral
here. -/
def pyFloatOpt : YVal → Option Int
  | .int n => some n
  | .str s => parseIntStr s
  | .none => none

/-- One maintenance-rule definition from the YAML schedule with the
fields the engines read; absent optional fields are none / YVal.none,
matching the dict.get defaults in the sources. -/
structure Rule where
  key : Option String := Option.none
  label : Option String := Option.none
  matchKws : List String := []
  miles_interval : YVal := YVal.none
  months_interval : YVal := YVal.none
  trigger : String := "earliest"
  baseline_date : Option String := Option.none
  baseline_mileage : YVal := YVal.none
  note : String := ""
deriving DecidableEq, Repr

/-- The keyword test of both engines: normalize_services lowercases
the description into service_norm, and last_event_for_rule
or-accumulates Series.str.contains(kw) over rule["match"].  The
keyword itself is NOT lowercased by the source. -/
def eventMatches (rule : Rule) (e : Event) : Bool :=
  rule.matchKws.any (fun kw => strContains (pyLower e.service) kw)

/-- The matching predicate as the specification words it: description
and keyword compared case-insensitively.  Declared only to compare the
specification's wording with the source behaviour. -/
def specMatchesCI (rule : Rule) (e : Event) : Bool :=
  rule.matchKws.any (fun kw => strContains (pyLower e.service) (pyLower kw))

/-- First sort key of the pandas sort in last_event_for_rule: the
parsed date, with unparsable dates placed after every parsed date
(pandas sort_values defaults na_position to last). -/
def optDateLt (a b : Option Date) : Bool :=
  match a, b with
  | some x, some y => dateLt x y
  | some _, none => true
  | none, _ => false

/-- Equivalence for the first sort key: pandas groups all missing
values together. -/
def optDateEquiv (a b : Option Date) : Bool :=
  match a, b with
  | some x, some y => x == y
  | none, none => true
  | _, _ => false

/-- Second sort key: mileage ascending, missing mileage after every
present one. -/
def optMileLe (a b : Option Int) : Bool :=
  match a, b with
  | some x, some y => decide (x ≤ y)
  | some _, none => true
  | none, none => true
  | none, some _ => false

/-- Row order of hits.sort_values(["parsed_date", "mileage"],
ascending=[True, True]) in both engines: lexicographic on the two
keys, with missing values last in each key. -/
def evLe (a b : Event) : Bool :=
  optDateLt (parse_date_us a.date) (parse_date_us b.date) ||
    (optDateEquiv (parse_date_us a.date) (parse_date_us b.date) &&
      optMileLe a.mileage b.mileage)

theorem evLe_total (a b : Event) : evLe a b = true ∨ evLe b a = true := by
  unfold evLe
  rcases ha : parse_date_us a.date with _ | da <;>
    rcases hb : parse_date_us b.date with _ | db <;>
    rcases hma : a.mileage with _ | ma <;>
    rcases hmb : b.mileage with _ | mb <;>
    obtain ⟨y1, m1, d1⟩ := a <;> obtain ⟨y2, m2, d2⟩ := b <;>
    simp_all [optDateLt, optDateEquiv, optMileLe, dateLt]
  all_goals
    first
    | omega
    | (rcases da with ⟨ya, maa, daa⟩; rcases db with ⟨yb, mbb, dbb⟩;
       simp [Date.mk.injEq]; omega)

theorem evLe_trans (a b c : Event) (h1 : evLe a b = true)
    (h2 : evLe b c = true) : evLe a c = true := by
  unfold evLe at h1 h2 ⊢
  rcases ha : parse_date_us a.date with _ | da <;>
    rcases hb : parse_date_us b.date with _ | db <;>
    rcases hc : parse_date_us c.date with _ | dc <;>
    rcases hma : a.mileage with _ | ma <;>
    rcases hmb : b.mileage with _ | mb <;>
    rcases hmc : c.mileage with _ | mc <;>
    simp_all [optDateLt, optDateEquiv, optMileLe, dateLt]
  all_goals
    try (rcases da with ⟨ya, maa, daa⟩)
  all_goals
    try (rcases db with ⟨yb, mbb, dbb⟩)
  all_goals
    try (rcases dc with ⟨yc, mcc, dcc⟩)
  all_goals try simp_all [Date.mk.injEq]
  all_goals omega

/-- The overdue test both GUI engines apply to the remaining margins:
overdue when either margin is present and at most zero
(camry_maint_app lines 92-96, car_maintenances line 165). -/
def guiOverdue (mu du : Option Int) : Bool :=
  (match mu with | some m => decide (m ≤ 0) | none => false) ||
  (match du with | some d => decide (d ≤ 0) | none => false)

/-- The urgency metric of camry_maint_app lines 100-104: start from
999999 and take the minimum with each present margin. -/
def urgencyMetric (mu du : Option Int) : Int :=
  let u1 : Int := match mu with | some m => min 999999 m | none => 999999
  match du with | some d => min u1 d | none => u1

theorem guiOverdue_iff (mu du : Option Int) :
    guiOverdue mu du = true ↔
      ((∃ m, mu = some m ∧ m ≤ 0) ∨ (∃ d, du = some d ∧ d ≤ 0)) := by
  rcases mu with _ | m <;> rcases du with _ | d <;> simp [guiOverdue]

theorem status_overdue_iff (mu du : Option Int) :
    ((if guiOverdue mu du then "OVERDUE" else "upcoming") = "OVERDUE") ↔
      ((∃ m, mu = some m ∧ m ≤ 0) ∨ (∃ d, du = some d ∧ d ≤ 0)) := by
  rw [← guiOverdue_iff]
  by_cases h : guiOverdue mu du = true
  · simp [h]
  · simp [h]

theorem urgencyMetric_none_none : urgencyMetric none none = 999999 := rfl

theorem urgencyMetric_some_none (m : Int) :
    urgencyMetric (some m) none = min 999999 m := rfl

theorem urgencyMetric_none_some (d : Int) :
    urgencyMetric none (some d) = min 999999 d := rfl

theorem urgencyMetric_some_some (m d : Int) :
    urgencyMetric (some m) (some d) = min (min 999999 m) d := rfl

/-- Error propagation of a Python for-loop that builds one output per
input and lets an exception abort the whole call. -/
def exMapM (f : α → Except String β) : List α → Except String (List β)
  | [] => .ok []
  | a :: t =>
    match f a with
    | .error e => .error e
    | .ok b =>
      match exMapM f t with
      | .error e => .error e
      | .ok bs => .ok (b :: bs)

namespace Camry

/-- Evaluated-rule record appended per rule by compute_next_due in
camry_maint_app.py.  due_date is kept as a date; the source renders it
to ISO text only for display. -/
structure RuleResult where
  key : Option String
  note : String
  trigger : String
  last_service : String
  last_date : Option String
  last_mileage : Option Int
  miles_interval : Int
  months_interval : Int
  due_mileage : Option Int
  due_date : Option Date
  miles_until : Option Int
  days_until : Option Int
  status : String
  urgency_metric : Int
deriving DecidableEq, Repr

/-- last_event_for_rule of camry_maint_app.py: keep rows whose
lowercased description contains a keyword, stable-sort ascending by
(parsed_date, mileage), take the last row; none when nothing
matches. -/
def last_event_for_rule (df : List Event) (rule : Rule) : Option Event :=
  let hits := df.filter (fun e => eventMatches rule e)
  if hits.isEmpty then none
  else (pySort evLe hits).getLast?

/-- Body of the per-rule loop of compute_next_due once the two interval
fields have been converted to numbers. -/
def evalRuleCore (df : List Event) (current_mileage : Int) (today : Date)
    (rule : Rule) (miles_int months_int : Int) : RuleResult :=
  let trigger := pyLower (pyStrip rule.trigger)
  let last := last_event_for_rule df rule
  let dm_dd : Option Int × Option Date :=
    match last with
    | some lv =>
      let due_m := if miles_int > 0 then
          lv.mileage.map (fun x => x + miles_int) else none
      let due_d := if months_int > 0 then
          (parse_date_us lv.date).map (fun d => addMonths d months_int)
        else none
      if trigger == "mileage_only" then (due_m, none) else (due_m, due_d)
    | none =>
      ((if miles_int > 0 then some miles_int else none),
       (if months_int > 0 && !(trigger == "mileage_only") then some today
        else none))
  let miles_until := dm_dd.1.map (fun dm => dm - current_mileage)
  let days_until := dm_dd.2.map (fun dd => daysBetween dd today)
  { key := rule.key
    note := rule.note
    trigger := trigger
    last_service :=
      match last with | some lv => lv.service | none => "(none recorded)"
    last_date := last.map (fun lv => lv.date)
    last_mileage := match last with | some lv => lv.mileage | none => none
    miles_interval := miles_int
    months_interval := months_int
    due_mileage := dm_dd.1
    due_date := dm_dd.2
    miles_until := miles_until
    days_until := days_until
    status := if guiOverdue miles_until days_until then "OVERDUE" else "upcoming"
    urgency_metric := urgencyMetric miles_until days_until }

/-- One iteration of the rule loop, including the
int(rule.get(..., 0) or 0) conversions that can raise on a malformed
interval value. -/
def evalRule (df : List Event) (current_mileage : Int) (today : Date)
    (rule : Rule) : Except String RuleResult :=
  match pyInt rule.miles_interval.orZero with
  | .error e => .error e
  | .ok mi =>
    match pyInt rule.months_interval.orZero with
    | .error e => .error e
    | .ok mo => .ok (evalRuleCore df current_mileage today rule mi mo)

/-- urgency_key of compute_next_due; the metric field is always an
integer, so the or-999999 guard of the source never fires. -/
def urgency_key (x : RuleResult) : Int × Int :=
  (if x.status == "OVERDUE" then 0 else 1, x.urgency_metric)

/-- Ascending lexicographic comparison of two rows by urgency_key, the
order results.sort(key=urgency_key) establishes. -/
def resLe (a b : RuleResult) : Bool :=
  decide ((urgency_key a).1 < (urgency_key b).1) ||
    (decide ((urgency_key a).1 = (urgency_key b).1) &&
      decide ((urgency_key a).2 ≤ (urgency_key b).2))

/-- results.sort(key=urgency_key): Python's stable sort by the key. -/
def rank (results : List RuleResult) : List RuleResult := pySort resLe results

/-- compute_next_due of camry_maint_app.py. -/
def compute_next_due (df : List Event) (current_mileage : Int)
    (today : Date) (rules : List Rule) : Except String (List RuleResult) :=
  match exMapM (evalRule df current_mileage today) rules with
  | .error e => .error e
  | .ok results => .ok (rank results)

theorem resLe_total (a b : RuleResult) : resLe a b = true ∨ resLe b a = true := by
  unfold resLe urgency_key
  by_cases ha : (a.status == "OVERDUE") = true <;>
    by_cases hb : (b.status == "OVERDUE") = true <;>
    simp [ha, hb] <;> omega

theorem resLe_trans (a b c : RuleResult) (h1 : resLe a b = true)
    (h2 : resLe b c = true) : resLe a c = true := by
  unfold resLe urgency_key at h1 h2 ⊢
  by_cases ha : (a.status == "OVERDUE") = true <;>
    by_cases hb : (b.status == "OVERDUE") = true <;>
    by_cases hc : (c.status == "OVERDUE") = true <;>
    simp_all <;> omega

end Camry

/-- The matched-event dictionary car_maintenances.last_event_for_rule
returns: a real CSV row or a synthesized baseline. -/
structure MEvent where
  service_text : String
  date : Option String
  mileage : Option Int
  note : String
deriving DecidableEq, Repr

namespace CarM

/-- Label lookup rule.get("label", rule.get("key", default)). -/
def labelOr (rule : Rule) (d : String) : String :=
  rule.label.getD (rule.key.getD d)

/-- last_event_for_rule of car_maintenances.py: the same filtered
stable sort as the Camry engine when hits exist, otherwise a baseline
pseudo-event synthesized from the rule, or none when the rule supplies
no baseline. -/
def last_event_for_rule (df : List Event) (rule : Rule) : Option MEvent :=
  let hits := df.filter (fun e => eventMatches rule e)
  if hits.isEmpty then
    let b_date : Option Date :=
      match rule.baseline_date with
      | some s => if s == "" then none else parse_flexible_date s
      | none => none
    let b_mi : Option Int := pyFloatOpt rule.baseline_mileage
    if b_date == none && b_mi == none then none
    else some
      { service_text := "(baseline) " ++ labelOr rule "Baseline"
        date := b_date.map fmtUS
        mileage := b_mi
        note := "Baseline from schedule rules" }
  else
    ((pySort evLe hits).getLast?).map
      (fun e =>
        { service_text := e.service, date := some e.date,
          mileage := e.mileage, note := e.note })

/-- Evaluated-rule record appended per rule by compute_next_due in
car_maintenances.py. -/
structure CResult where
  label : String
  rule_note : String
  last_service : String
  last_note : String
  last_date : Option String
  last_mileage : Option Int
  due_mileage : Option Int
  due_date : Option Date
  miles_until : Option Int
  days_until : Option Int
  status : String
deriving DecidableEq, Repr

/-- Loop body of car_maintenances.compute_next_due after interval
conversion. -/
def evalRuleCore (df : List Event) (current_mileage : Int) (today : Date)
    (rule : Rule) (miles_int months_int : Int) : CResult :=
  let trigger := pyLower rule.trigger
  let label := labelOr rule "Unnamed"
  let last := last_event_for_rule df rule
  let dm_dd : Option Int × Option Date :=
    match last with
    | some lv =>
      ((if miles_int > 0 then lv.mileage.map (fun x => x + miles_int)
        else none),
       (if months_int > 0 && !(trigger == "mileage_only") then
          (match lv.date with
           | some s => parse_flexible_date s
           | none => none).map (fun d => addMonths d months_int)
        else none))
    | none =>
      ((if miles_int > 0 then some miles_int else none),
       (if months_int > 0 && !(trigger == "mileage_only") then some today
        else none))
  let miles_until := dm_dd.1.map (fun dm => dm - current_mileage)
  let days_until := dm_dd.2.map (fun dd => daysBetween dd today)
  { label := label
    rule_note := rule.note
    last_service :=
      match last with | some lv => lv.service_text | none => "(none)"
    last_note := match last with | some lv => lv.note | none => ""
    last_date := match last with | some lv => lv.date | none => none
    last_mileage := match last with | some lv => lv.mileage | none => none
    due_mileage := dm_dd.1
    due_date := dm_dd.2
    miles_until := miles_until
    days_until := days_until
    status := if guiOverdue miles_until days_until then "OVERDUE" else "upcoming" }

/-- One iteration of the rule loop, interval conversion included. -/
def evalRule (df : List Event) (current_mileage : Int) (today : Date)
    (rule : Rule) : Except String CResult :=
  match pyInt rule.miles_interval.orZero with
  | .error e => .error e
  | .ok mi =>
    match pyInt rule.months_interval.orZero with
    | .error e => .error e
    | .ok mo => .ok (evalRuleCore df current_mileage today rule mi mo)

/-- compute_next_due of car_maintenances.py (no ranking step; rows
stay in rule order). -/
def compute_next_due (df : List Event) (current_mileage : Int)
    (today : Date) (rules : List Rule) : Except String (List CResult) :=
  exMapM (evalRule df current_mileage today) rules

end CarM

/-- The overdue test of maintenance_bot.compute: a margin counts only
when present and strictly negative (line 34 of the source). -/
def botOverdue (mu du : Option Int) : Bool :=
  (match mu with | some m => decide (m < 0) | none => false) ||
  (match du with | some d => decide (d < 0) | none => false)

/-- The due_soon test of maintenance_bot.compute: never when overdue,
otherwise a present margin within its threshold (line 35). -/
def botDueSoon (mu du : Option Int) (thm thd : Int) : Bool :=
  if botOverdue mu du then false
  else
    (match mu with | some m => decide (m ≤ thm) | none => false) ||
    (match du with | some d => decide (d ≤ thd) | none => false)

theorem botOverdue_iff (mu du : Option Int) :
    botOverdue mu du = true ↔
      ((∃ m, mu = some m ∧ m < 0) ∨ (∃ d, du = some d ∧ d < 0)) := by
  rcases mu with _ | m <;> rcases du with _ | d <;> simp [botOverdue]

theorem botDueSoon_of_zero (mu du : Option Int) (thm thd : Int)
    (hm : ∀ m, mu = some m → 0 ≤ m) (hd : ∀ d, du = some d → 0 ≤ d)
    (hz : mu = some 0 ∨ du = some 0)
    (hthm : 0 ≤ thm) (hthd : 0 ≤ thd) :
    botOverdue mu du = false ∧ botDueSoon mu du thm thd = true := by
  have hov : botOverdue mu du = false := by
    rcases mu with _ | m <;> rcases du with _ | d <;>
      simp_all [botOverdue]
  refine ⟨hov, ?_⟩
  unfold botDueSoon
  rw [hov]
  rcases hz with hz | hz <;> subst hz <;> simp_all

namespace Bot

/-- One entry of cfg["tasks"] in maintenance_config.yaml, with the
fields maintenance_bot.compute reads. -/
structure Task where
  name : String
  interval_miles : Option Int := Option.none
  interval_months : Option Int := Option.none
  initial_miles : Int := 0
  initial_date : Option String := Option.none
deriving DecidableEq, Repr

/-- One entry of data["services"] in maintenance_data.json. -/
structure Service where
  task : String
  miles : Option Int := Option.none
  date : String
deriving DecidableEq, Repr

/-- cfg["thresholds"], possibly with missing keys. -/
structure Thresholds where
  miles : Option Int := Option.none
  days : Option Int := Option.none
deriving DecidableEq, Repr

/-- The row dictionary maintenance_bot.compute returns. -/
structure Row where
  task : String
  next_due_miles : Option Int
  next_due_date : Option Date
  miles_left : Option Int
  days_left : Option Int
  overdue : Bool
  due_soon : Bool
deriving DecidableEq, Repr

/-- maintenance_bot.parse_date: falsy input gives None, otherwise a
strict ISO strptime that raises ValueError on malformed text. -/
def parse_date (s : Option String) : Except String (Option Date) :=
  match s with
  | none => .ok none
  | some str =>
    if str == "" then .ok none
    else
      match parseISO str with
      | some d => .ok (some d)
      | none => .error "ValueError"

/-- Strict comparison of the (date string, miles or 0) sort key of
last_service_for_task, as Python compares those tuples. -/
def svKeyLt (a b : Service) : Bool :=
  strLt a.date b.date ||
    (a.date == b.date && decide (a.miles.getD 0 < b.miles.getD 0))

/-- Python max(sv, key=...): keeps the first element among maximal
keys, replacing the best only on a strictly greater key. -/
def maxByKey : Service → List Service → Service
  | best, [] => best
  | best, s :: t => maxByKey (if svKeyLt best s then s else best) t

/-- last_service_for_task of maintenance_bot.py: services whose task
name matches case-insensitively, the latest by (date, miles). -/
def last_service_for_task (services : List Service) (name : String) :
    Option Service :=
  match services.filter (fun s => pyLower s.task == pyLower name) with
  | [] => none
  | s :: t => some (maxByKey s t)

/-- The anchor-date lookup of maintenance_bot.compute: the matched
service's date when one exists, otherwise the task's initial date. -/
def anchorDate (last : Option Service) (t : Task) : Except String (Option Date) :=
  match last with
  | some l => parse_date (some l.date)
  | none => parse_date t.initial_date

/-- compute of maintenance_bot.py for one task: anchor at the last
matching service or the task's initial values, project truthy
intervals forward, then classify: overdue on a strictly negative
margin, otherwise due_soon on a margin within the threshold. -/
def compute (t : Task) (services : List Service) (ref_mi : Option Int)
    (ref_dt : Date) (th : Thresholds) : Except String Row :=
  let last := last_service_for_task services t.name
  let a_mi : Int :=
    match last with
    | some l => l.miles.getD 0
    | none => t.initial_miles
  match anchorDate last t with
  | .error e => .error e
  | .ok pd =>
    let a_dt : Date := pd.getD ref_dt
    let next_mi : Option Int :=
      match t.interval_miles with
      | some n => if n == 0 then none else some (a_mi + n)
      | none => none
    let next_dt : Option Date :=
      match t.interval_months with
      | some n => if n == 0 then none else some (addMonths a_dt n)
      | none => none
    let miles_left : Option Int :=
      match next_mi, ref_mi with
      | some nm, some rm => some (nm - rm)
      | _, _ => none
    let days_left : Option Int :=
      next_dt.map (fun nd => daysBetween nd ref_dt)
    .ok { task := t.name, next_due_miles := next_mi, next_due_date := next_dt,
          miles_left := miles_left, days_left := days_left,
          overdue := botOverdue miles_left days_left,
          due_soon :=
            botDueSoon miles_left days_left (th.miles.getD 500) (th.days.getD 30) }

end Bot

end PVM

open PVM

/-- A rule in mileage-only trigger mode with a time interval
configured anyway (Scenario 4 of the specification). -/
def c1Rule : Rule :=
  { key := some "Tire Rotation", matchKws := ["tire"],
    miles_interval := YVal.int 5000, months_interval := YVal.int 12,
    trigger := "mileage_only" }

/-- A dated, mileaged event matching c1Rule. -/
def c1Event : Event :=
  { date := "01/01/2023", mileage := some 20000, service := "tire rotation" }

/-- C1: for every rule whose trigger mode normalizes to mileage_only,
the due projection of either GUI engine carries a null due date, for
every event history, reference data and configured intervals — the
time interval is ignored outright. -/
theorem c1_mileage_only_null_due_date
    (df : List Event) (cur : Int) (today : Date) (rule : Rule) (mi mo : Int) :
    (pyLower (pyStrip rule.trigger) = "mileage_only" →
      (Camry.evalRuleCore df cur today rule mi mo).due_date = none) ∧
    (pyLower rule.trigger = "mileage_only" →
      (CarM.evalRuleCore df cur today rule mi mo).due_date = none) := by
  constructor
  · intro h
    simp only [Camry.evalRuleCore, h]
    cases Camry.last_event_for_rule df rule <;> simp
  · intro h
    simp only [CarM.evalRuleCore, h]
    cases CarM.last_event_for_rule df rule <;> simp

/-- Witness for C1 at Scenario 4: a dated and mileaged matching event
together with a 12-month interval still leave the due date null. -/
theorem c1_witness :
    pyLower (pyStrip c1Rule.trigger) = "mileage_only" ∧
    pyLower c1Rule.trigger = "mileage_only" ∧
    (Camry.evalRuleCore [c1Event] 30000 ⟨2023, 7, 15⟩ c1Rule 5000 12).due_date
      = none ∧
    (CarM.evalRuleCore [c1Event] 30000 ⟨2023, 7, 15⟩ c1Rule 5000 12).due_date
      = none :=
  ⟨rfl, rfl,
   (c1_mileage_only_null_due_date [c1Event] 30000 ⟨2023, 7, 15⟩ c1Rule
       5000 12).1 rfl,
   (c1_mileage_only_null_due_date [c1Event] 30000 ⟨2023, 7, 15⟩ c1Rule
       5000 12).2 rfl⟩

/-- The matcher's event order as the specification words it: ascending
(parsed date, mileage) with events whose date fails to parse BEFORE
every event with a valid parsed date.  Declared only to compare the
specification's wording with the source behaviour. -/
def specEvLe (a b : Event) : Bool :=
  (match parse_date_us a.date, parse_date_us b.date with
   | some x, some y => dateLt x y
   | none, some _ => true
   | _, _ => false) ||
  (optDateEquiv (parse_date_us a.date) (parse_date_us b.date) &&
    optMileLe a.mileage b.mileage)

/-- An oil-change rule with both intervals. -/
def c2RuleOil : Rule :=
  { key := some "Oil Change", matchKws := ["oil"],
    miles_interval := YVal.int 5000, months_interval := YVal.int 6 }

/-- A matching event with a valid date. -/
def c2Dated : Event :=
  { date := "01/01/2023", mileage := some 100, service := "oil change" }

/-- A matching event whose date does not parse. -/
def c2Garbled : Event :=
  { date := "garbage", mileage := some 50, service := "oil change" }

/-- C2 is false as stated: with one valid-dated and one
unparsable-dated matching event, both matchers return the
unparsable-dated event (pandas places missing keys last, not first),
while the claimed ordering — unparsable earliest — ranks it strictly
below the valid-dated candidate, whose selection the claim therefore
demands. -/
theorem c2_counterexample :
    Camry.last_event_for_rule [c2Dated, c2Garbled] c2RuleOil
      = some c2Garbled ∧
    CarM.last_event_for_rule [c2Dated, c2Garbled] c2RuleOil
      = some { service_text := "oil change", date := some "garbage",
               mileage := some 50, note := "" } ∧
    c2Dated ∈ [c2Dated, c2Garbled].filter
      (fun e => eventMatches c2RuleOil e) ∧
    specEvLe c2Dated c2Garbled = false ∧
    (parse_date_us c2Dated.date).isSome = true ∧
    parse_date_us c2Garbled.date = none :=
  ⟨rfl, rfl, by decide, rfl, rfl, rfl⟩

/-- C2 (amended): for every rule whose keyword-filtered event set is
non-empty, both matchers return the maximal event of the filtered set
under the pandas order — ascending (parsed date, mileage), same-date
ties broken by higher mileage, but with unparsable dates AFTER every
parsed date (and missing mileage after every present one), pandas
having missing values last by default. -/
theorem c2_matcher_selects_pandas_max (df : List Event) (rule : Rule)
    (hne : df.filter (fun e => eventMatches rule e) ≠ []) :
    ∃ e, Camry.last_event_for_rule df rule = some e ∧
      CarM.last_event_for_rule df rule = some
        { service_text := e.service, date := some e.date,
          mileage := e.mileage, note := e.note } ∧
      e ∈ df.filter (fun e' => eventMatches rule e') ∧
      (∀ e' ∈ df.filter (fun e' => eventMatches rule e'), evLe e' e = true) := by
  set hits := df.filter (fun e => eventMatches rule e) with hhits
  have hperm := pySort_perm evLe hits
  have hsne : pySort evLe hits ≠ [] := by
    intro h0
    rw [h0] at hperm
    exact hne hperm.symm.eq_nil
  obtain ⟨e, he⟩ : ∃ e, (pySort evLe hits).getLast? = some e := by
    cases hg : (pySort evLe hits).getLast? with
    | none => exact absurd (List.getLast?_eq_none_iff.1 hg) hsne
    | some e => exact ⟨e, rfl⟩
  have hie : hits.isEmpty = false := by
    cases hb : hits.isEmpty
    · rfl
    · exact absurd (List.isEmpty_iff.1 hb) hne
  have hmemS : e ∈ pySort evLe hits := by
    obtain ⟨ys, hys⟩ := List.getLast?_eq_some_iff.1 he
    rw [hys]
    exact List.mem_append_right ys (List.mem_singleton_self e)
  have hmem : e ∈ hits := hperm.mem_iff.1 hmemS
  have hsorted := pySort_pairwise evLe evLe_total evLe_trans hits
  have hmax := sPairwise_getLast_max evLe evLe_total hsorted he
  refine ⟨e, ?_, ?_, hmem, ?_⟩
  · unfold Camry.last_event_for_rule
    rw [← hhits]
    simp [hie, he]
  · unfold CarM.last_event_for_rule
    rw [← hhits]
    simp [hie, he]
  · intro e' he'
    exact hmax e' (hperm.mem_iff.2 he')

/-- Witness for the amended C2 at a two-event history. -/
theorem c2_witness :
    ([c2Dated, c2Garbled].filter (fun e => eventMatches c2RuleOil e) ≠ []) ∧
    (∃ e, Camry.last_event_for_rule [c2Dated, c2Garbled] c2RuleOil = some e ∧
      CarM.last_event_for_rule [c2Dated, c2Garbled] c2RuleOil = some
        { service_text := e.service, date := some e.date,
          mileage := e.mileage, note := e.note } ∧
      e ∈ [c2Dated, c2Garbled].filter (fun e' => eventMatches c2RuleOil e') ∧
      (∀ e' ∈ [c2Dated, c2Garbled].filter
          (fun e' => eventMatches c2RuleOil e'), evLe e' e = true)) :=
  ⟨by decide,
   c2_matcher_selects_pandas_max [c2Dated, c2Garbled] c2RuleOil (by decide)⟩

/-- A rule that matches nothing and projects nothing. -/
def c3Rule : Rule := { key := some "inspection" }

/-- C3: under either GUI evaluator, the status is OVERDUE exactly when
some present remaining margin is at most zero; with both margins
absent the row is upcoming (the code spells the non-overdue status
"upcoming"). -/
theorem c3_overdue_iff_nonpositive_margin
    (df : List Event) (cur : Int) (today : Date) (rule : Rule) (mi mo : Int) :
    ((Camry.evalRuleCore df cur today rule mi mo).status = "OVERDUE" ↔
      ((∃ m, (Camry.evalRuleCore df cur today rule mi mo).miles_until
          = some m ∧ m ≤ 0) ∨
       (∃ d, (Camry.evalRuleCore df cur today rule mi mo).days_until
          = some d ∧ d ≤ 0))) ∧
    ((Camry.evalRuleCore df cur today rule mi mo).miles_until = none →
      (Camry.evalRuleCore df cur today rule mi mo).days_until = none →
      (Camry.evalRuleCore df cur today rule mi mo).status = "upcoming") ∧
    ((CarM.evalRuleCore df cur today rule mi mo).status = "OVERDUE" ↔
      ((∃ m, (CarM.evalRuleCore df cur today rule mi mo).miles_until
          = some m ∧ m ≤ 0) ∨
       (∃ d, (CarM.evalRuleCore df cur today rule mi mo).days_until
          = some d ∧ d ≤ 0))) ∧
    ((CarM.evalRuleCore df cur today rule mi mo).miles_until = none →
      (CarM.evalRuleCore df cur today rule mi mo).days_until = none →
      (CarM.evalRuleCore df cur today rule mi mo).status = "upcoming") := by
  refine ⟨?_, ?_, ?_, ?_⟩
  · simp only [Camry.evalRuleCore]
    exact status_overdue_iff _ _
  · simp only [Camry.evalRuleCore]
    intro h1 h2
    rw [h1, h2]
    simp [guiOverdue]
  · simp only [CarM.evalRuleCore]
    exact status_overdue_iff _ _
  · simp only [CarM.evalRuleCore]
    intro h1 h2
    rw [h1, h2]
    simp [guiOverdue]

/-- Witness for C3: a rule with no history and no intervals has both
margins null and is upcoming in both engines. -/
theorem c3_witness :
    (Camry.evalRuleCore [] 0 ⟨2023, 1, 1⟩ c3Rule 0 0).miles_until = none ∧
    (Camry.evalRuleCore [] 0 ⟨2023, 1, 1⟩ c3Rule 0 0).days_until = none ∧
    (Camry.evalRuleCore [] 0 ⟨2023, 1, 1⟩ c3Rule 0 0).status = "upcoming" ∧
    (CarM.evalRuleCore [] 0 ⟨2023, 1, 1⟩ c3Rule 0 0).status = "upcoming" :=
  ⟨rfl, rfl,
   (c3_overdue_iff_nonpositive_margin [] 0 ⟨2023, 1, 1⟩ c3Rule 0 0).2.1 rfl rfl,
   (c3_overdue_iff_nonpositive_margin [] 0 ⟨2023, 1, 1⟩ c3Rule 0 0).2.2.2
     rfl rfl⟩

/-- A rule whose mileage interval is a non-numeric string. -/
def c4BadRule : Rule :=
  { key := some "bad", miles_interval := YVal.str "every 5k" }

/-- A rule with a negative (numeric) mileage interval and an absent
months interval. -/
def c4NegRule : Rule :=
  { key := some "neg", miles_interval := YVal.int (-3) }

/-- C4 is false as stated: a truthy non-numeric interval string makes
int() raise ValueError in both engines, so no result list is returned
at all, let alone one entry per rule. -/
theorem c4_counterexample :
    Camry.compute_next_due [] 0 ⟨2023, 1, 1⟩ [c4BadRule]
      = Except.error "ValueError" ∧
    CarM.compute_next_due [] 0 ⟨2023, 1, 1⟩ [c4BadRule]
      = Except.error "ValueError" :=
  ⟨rfl, rfl⟩

theorem exMapM_ok_length {α β : Type _} (f : α → Except String β)
    (l : List α) (h : ∀ a ∈ l, ∃ b, f a = Except.ok b) :
    ∃ bs, exMapM f l = Except.ok bs ∧ bs.length = l.length := by
  induction l with
  | nil => exact ⟨[], rfl, rfl⟩
  | cons a t ih =>
    obtain ⟨b, hb⟩ := h a (List.mem_cons_self a t)
    obtain ⟨bs, hbs, hlen⟩ := ih (fun x hx => h x (List.mem_cons_of_mem a hx))
    exact ⟨b :: bs, by simp [exMapM, hb, hbs], by simp [hlen]⟩

/-- C4 (amended): when every interval value converts — numeric, or
falsy (absent, null, zero, empty) — neither engine raises and each
returns exactly one entry per rule; a nonpositive converted interval
(negative ones included) never yields a due figure, so negative values
act as disabled intervals.  A truthy non-numeric interval instead
propagates ValueError out of the engine (see the counterexample). -/
theorem c4_interval_handling
    (df : List Event) (cur : Int) (today : Date) (rules : List Rule)
    (h : ∀ r ∈ rules,
      (∃ n, pyInt r.miles_interval.orZero = Except.ok n) ∧
      (∃ n, pyInt r.months_interval.orZero = Except.ok n)) :
    (∃ rs, Camry.compute_next_due df cur today rules = Except.ok rs ∧
      rs.length = rules.length) ∧
    (∃ rs, CarM.compute_next_due df cur today rules = Except.ok rs ∧
      rs.length = rules.length) ∧
    (∀ rule mi mo, mi ≤ 0 →
      (Camry.evalRuleCore df cur today rule mi mo).due_mileage = none ∧
      (CarM.evalRuleCore df cur today rule mi mo).due_mileage = none) ∧
    (∀ rule mi mo, mo ≤ 0 →
      (Camry.evalRuleCore df cur today rule mi mo).due_date = none ∧
      (CarM.evalRuleCore df cur today rule mi mo).due_date = none) := by
  have hcam : ∀ r ∈ rules, ∃ b,
      Camry.evalRule df cur today r = Except.ok b := by
    intro r hr
    obtain ⟨⟨n1, h1⟩, ⟨n2, h2⟩⟩ := h r hr
    exact ⟨Camry.evalRuleCore df cur today r n1 n2,
      by simp [Camry.evalRule, h1, h2]⟩
  have hcarm : ∀ r ∈ rules, ∃ b,
      CarM.evalRule df cur today r = Except.ok b := by
    intro r hr
    obtain ⟨⟨n1, h1⟩, ⟨n2, h2⟩⟩ := h r hr
    exact ⟨CarM.evalRuleCore df cur today r n1 n2,
      by simp [CarM.evalRule, h1, h2]⟩
  obtain ⟨rs1, hrs1, hlen1⟩ := exMapM_ok_length _ rules hcam
  obtain ⟨rs2, hrs2, hlen2⟩ := exMapM_ok_length _ rules hcarm
  refine ⟨⟨Camry.rank rs1, ?_, ?_⟩, ⟨rs2, ?_, hlen2⟩, ?_, ?_⟩
  · simp [Camry.compute_next_due, hrs1]
  · unfold Camry.rank
    rw [(pySort_perm Camry.resLe rs1).length_eq]
    exact hlen1
  · simp [CarM.compute_next_due, hrs2]
  · intro rule mi mo hmi
    have hmi' : ¬ mi > 0 := by omega
    constructor
    · simp only [Camry.evalRuleCore]
      cases Camry.last_event_for_rule df rule <;> simp [hmi']
      split <;> rfl
    · simp only [CarM.evalRuleCore]
      cases CarM.last_event_for_rule df rule <;> simp [hmi']
  · intro rule mi mo hmo
    have hmo' : ¬ mo > 0 := by omega
    constructor
    · simp only [Camry.evalRuleCore]
      cases Camry.last_event_for_rule df rule <;> simp [hmo']
    · simp only [CarM.evalRuleCore]
      cases CarM.last_event_for_rule df rule <;> simp [hmo']

/-- Witness for the amended C4: a negative numeric interval converts
fine, the engines return one row for the one rule, and the negative
interval produces no due mileage. -/
theorem c4_witness :
    (∀ r ∈ [c4NegRule],
      (∃ n, pyInt r.miles_interval.orZero = Except.ok n) ∧
      (∃ n, pyInt r.months_interval.orZero = Except.ok n)) ∧
    (∃ rs, Camry.compute_next_due [] 12000 ⟨2024, 5, 1⟩ [c4NegRule]
        = Except.ok rs ∧ rs.length = [c4NegRule].length) ∧
    (Camry.evalRuleCore [] 12000 ⟨2024, 5, 1⟩ c4NegRule (-3) 0).due_mileage
      = none ∧
    (CarM.evalRuleCore [] 12000 ⟨2024, 5, 1⟩ c4NegRule (-3) 0).due_date
      = none := by
  have h : ∀ r ∈ [c4NegRule],
      (∃ n, pyInt r.miles_interval.orZero = Except.ok n) ∧
      (∃ n, pyInt r.months_interval.orZero = Except.ok n) := by
    intro r hr
    rw [List.mem_singleton.1 hr]
    exact ⟨⟨-3, rfl⟩, ⟨0, rfl⟩⟩
  refine ⟨h, (c4_interval_handling [] 12000 ⟨2024, 5, 1⟩ [c4NegRule] h).1,
    ((c4_interval_handling [] 12000 ⟨2024, 5, 1⟩ [c4NegRule] h).2.2.1
      c4NegRule (-3) 0 (by omega)).1,
    ((c4_interval_handling [] 12000 ⟨2024, 5, 1⟩ [c4NegRule] h).2.2.2
      c4NegRule (-3) 0 (by omega)).2⟩

/-- A rule with a mileage interval far above the urgency sentinel. -/
def c5BigRule : Rule :=
  { key := some "big", miles_interval := YVal.int 2000000 }

/-- C5 is false as stated: a sole margin of 2000000 miles yields the
sentinel 999999 as urgency metric, not the minimum of the present
margins, because the source seeds its running minimum with 999999. -/
theorem c5_counterexample :
    (Camry.evalRuleCore [] 0 ⟨2023, 1, 1⟩ c5BigRule 2000000 0).miles_until
      = some 2000000 ∧
    (Camry.evalRuleCore [] 0 ⟨2023, 1, 1⟩ c5BigRule 2000000 0).days_until
      = none ∧
    (Camry.evalRuleCore [] 0 ⟨2023, 1, 1⟩ c5BigRule 2000000 0).urgency_metric
      = 999999 ∧
    (999999 : Int) ≠ 2000000 :=
  ⟨rfl, rfl, rfl, by decide⟩

/-- C5 (amended): the urgency metric is the minimum of the sentinel
999999 and whichever remaining margins are present — i.e. the stated
minimum capped at the sentinel; with both margins absent it is the
bare sentinel, so the rule sorts last among non-overdue rules. -/
theorem c5_urgency_metric_capped_min
    (df : List Event) (cur : Int) (today : Date) (rule : Rule) (mi mo : Int) :
    ((Camry.evalRuleCore df cur today rule mi mo).miles_until = none →
      (Camry.evalRuleCore df cur today rule mi mo).days_until = none →
      (Camry.evalRuleCore df cur today rule mi mo).urgency_metric = 999999) ∧
    (∀ m, (Camry.evalRuleCore df cur today rule mi mo).miles_until = some m →
      (Camry.evalRuleCore df cur today rule mi mo).days_until = none →
      (Camry.evalRuleCore df cur today rule mi mo).urgency_metric
        = min 999999 m) ∧
    (∀ d, (Camry.evalRuleCore df cur today rule mi mo).miles_until = none →
      (Camry.evalRuleCore df cur today rule mi mo).days_until = some d →
      (Camry.evalRuleCore df cur today rule mi mo).urgency_metric
        = min 999999 d) ∧
    (∀ m d, (Camry.evalRuleCore df cur today rule mi mo).miles_until = some m →
      (Camry.evalRuleCore df cur today rule mi mo).days_until = some d →
      (Camry.evalRuleCore df cur today rule mi mo).urgency_metric
        = min (min 999999 m) d) := by
  refine ⟨?_, ?_, ?_, ?_⟩ <;> simp only [Camry.evalRuleCore]
  · intro h1 h2
    rw [h1, h2]
    exact urgencyMetric_none_none
  · intro m h1 h2
    rw [h1, h2]
    exact urgencyMetric_some_none m
  · intro d h1 h2
    rw [h1, h2]
    exact urgencyMetric_none_some d
  · intro m d h1 h2
    rw [h1, h2]
    exact urgencyMetric_some_some m d

/-- Witness for the amended C5 at a margin below the sentinel: the
metric is that margin. -/
theorem c5_witness :
    (Camry.evalRuleCore [] 0 ⟨2023, 1, 1⟩ c5BigRule 600 0).miles_until
      = some 600 ∧
    (Camry.evalRuleCore [] 0 ⟨2023, 1, 1⟩ c5BigRule 600 0).days_until
      = none ∧
    (Camry.evalRuleCore [] 0 ⟨2023, 1, 1⟩ c5BigRule 600 0).urgency_metric
      = min 999999 600 :=
  ⟨rfl, rfl,
   (c5_urgency_metric_capped_min [] 0 ⟨2023, 1, 1⟩ c5BigRule 600 0).2.1
     600 rfl rfl⟩

theorem camry_resLe_of_key_eq {a b : Camry.RuleResult}
    (h : Camry.urgency_key a = Camry.urgency_key b) :
    Camry.resLe a b = true ∧ Camry.resLe b a = true := by
  unfold Camry.resLe
  rw [h]
  simp

theorem camry_resLe_overdue_first {a b : Camry.RuleResult}
    (h : Camry.resLe a b = true) (hb : b.status = "OVERDUE") :
    a.status = "OVERDUE" := by
  by_cases ha : a.status = "OVERDUE"
  · exact ha
  · exfalso
    have ha' : (a.status == "OVERDUE") = false := by simp [ha]
    have hb' : (b.status == "OVERDUE") = true := by simp [hb]
    unfold Camry.resLe Camry.urgency_key at h
    rw [ha', hb'] at h
    simp at h

/-- C6: the ranker returns a permutation of its input, sorted
ascending by (overdue tier, urgency metric); rows with equal sort keys
keep their input order (the sort is stable), and every OVERDUE row
precedes every non-overdue one. -/
theorem c6_ranker_sorted_stable (l : List Camry.RuleResult) :
    (Camry.rank l).Perm l ∧
    (Camry.rank l).Pairwise (fun a b => Camry.resLe a b = true) ∧
    (∀ c : List Camry.RuleResult, c.Sublist l →
      c.Pairwise (fun a b => Camry.urgency_key a = Camry.urgency_key b) →
      c.Sublist (Camry.rank l)) ∧
    (Camry.rank l).Pairwise
      (fun a b => b.status = "OVERDUE" → a.status = "OVERDUE") := by
  refine ⟨pySort_perm _ l,
    pySort_pairwise _ Camry.resLe_total Camry.resLe_trans l, ?_, ?_⟩
  · intro c hsub hties
    exact pySort_stable _ c l hsub (hties.imp camry_resLe_of_key_eq)
  · exact (pySort_pairwise _ Camry.resLe_total Camry.resLe_trans l).imp
      (fun hab hb => camry_resLe_overdue_first hab hb)

/-- A non-overdue evaluated row with the sentinel metric. -/
def c6RowA : Camry.RuleResult :=
  { key := some "a", note := "", trigger := "earliest", last_service := "x",
    last_date := none, last_mileage := none, miles_interval := 0,
    months_interval := 0, due_mileage := none, due_date := none,
    miles_until := none, days_until := none, status := "upcoming",
    urgency_metric := 999999 }

/-- A second row with the same sort key. -/
def c6RowB : Camry.RuleResult := { c6RowA with key := some "b" }

/-- Witness for C6: two rows with tied keys stay in input order
through the ranker. -/
theorem c6_witness :
    [c6RowA, c6RowB].Sublist [c6RowA, c6RowB] ∧
    [c6RowA, c6RowB].Pairwise
      (fun a b => Camry.urgency_key a = Camry.urgency_key b) ∧
    [c6RowA, c6RowB].Sublist (Camry.rank [c6RowA, c6RowB]) := by
  have hp : [c6RowA, c6RowB].Pairwise
      (fun a b => Camry.urgency_key a = Camry.urgency_key b) := by
    refine List.pairwise_cons.2
      ⟨?_, List.pairwise_cons.2 ⟨?_, List.Pairwise.nil⟩⟩
    · intro b hb
      rw [List.mem_singleton.1 hb]
      rfl
    · intro b hb
      simp at hb
  exact ⟨List.Sublist.refl _, hp,
    (c6_ranker_sorted_stable [c6RowA, c6RowB]).2.2.1 [c6RowA, c6RowB]
      (List.Sublist.refl _) hp⟩

/-- A never-serviced rule with only a mileage interval (Scenario 3). -/
def c7Rule : Rule :=
  { key := some "Coolant Flush", matchKws := ["coolant"],
    miles_interval := YVal.int 30000 }

/-- C7: with no matched event and no baseline, the due mileage is the
interval itself exactly when the interval is positive, and the due
date is the reference date exactly when a time interval is configured
and the trigger mode is not mileage-only. -/
theorem c7_never_serviced_projection
    (df : List Event) (cur : Int) (today : Date) (rule : Rule) (mi mo : Int)
    (hC : Camry.last_event_for_rule df rule = none)
    (hM : CarM.last_event_for_rule df rule = none) :
    ((Camry.evalRuleCore df cur today rule mi mo).due_mileage =
      if mi > 0 then some mi else none) ∧
    ((Camry.evalRuleCore df cur today rule mi mo).due_date =
      if mo > 0 ∧ pyLower (pyStrip rule.trigger) ≠ "mileage_only"
      then some today else none) ∧
    ((CarM.evalRuleCore df cur today rule mi mo).due_mileage =
      if mi > 0 then some mi else none) ∧
    ((CarM.evalRuleCore df cur today rule mi mo).due_date =
      if mo > 0 ∧ pyLower rule.trigger ≠ "mileage_only"
      then some today else none) := by
  refine ⟨?_, ?_, ?_, ?_⟩
  · simp only [Camry.evalRuleCore, hC]
  · simp only [Camry.evalRuleCore, hC]
    by_cases h1 : mo > 0 <;>
      by_cases h2 : pyLower (pyStrip rule.trigger) = "mileage_only" <;>
      simp [h1, h2]
  · simp only [CarM.evalRuleCore, hM]
  · simp only [CarM.evalRuleCore, hM]
    by_cases h1 : mo > 0 <;>
      by_cases h2 : pyLower rule.trigger = "mileage_only" <;>
      simp [h1, h2]

/-- Witness for C7 at Scenario 3: never serviced, interval 30000 and
no months interval give a due mileage of 30000 and no due date. -/
theorem c7_witness :
    Camry.last_event_for_rule [] c7Rule = none ∧
    CarM.last_event_for_rule [] c7Rule = none ∧
    (Camry.evalRuleCore [] 5000 ⟨2023, 1, 1⟩ c7Rule 30000 0).due_mileage
      = some 30000 ∧
    (CarM.evalRuleCore [] 5000 ⟨2023, 1, 1⟩ c7Rule 30000 0).due_date
      = none := by
  have h := c7_never_serviced_projection [] 5000 ⟨2023, 1, 1⟩ c7Rule
    30000 0 rfl rfl
  refine ⟨rfl, rfl, ?_, ?_⟩
  · rw [h.1]
    norm_num
  · rw [h.2.2.2]
    simp

theorem c8_any_lower_congr (s : String) (l : List String)
    (h : ∀ kw ∈ l, pyLower kw = kw) :
    (l.any (fun kw => strContains s kw)) =
      (l.any (fun kw => strContains s (pyLower kw))) := by
  induction l with
  | nil => rfl
  | cons k t ih =>
    simp only [List.any_cons]
    rw [h k (List.mem_cons_self k t),
      ih (fun kw hkw => h kw (List.mem_cons_of_mem k hkw))]

/-- C8 (amended): an event qualifies for a rule exactly when its
LOWERCASED description contains one of the keywords AS WRITTEN — the
keyword is not lowercased, so the comparison is case-insensitive only
on the description side and keywords containing uppercase match
nothing lowercase; an empty keyword list matches nothing; and on
rules whose keywords are all lowercase the test coincides with the
specification's case-insensitive one. -/
theorem c8_keyword_filter (rule : Rule) (e : Event) :
    (eventMatches rule e = true ↔
      ∃ kw ∈ rule.matchKws, strContains (pyLower e.service) kw = true) ∧
    (rule.matchKws = [] → eventMatches rule e = false) ∧
    ((∀ kw ∈ rule.matchKws, pyLower kw = kw) →
      eventMatches rule e = specMatchesCI rule e) := by
  refine ⟨?_, ?_, ?_⟩
  · simp [eventMatches, List.any_eq_true]
  · intro h
    simp [eventMatches, h]
  · intro h
    unfold eventMatches specMatchesCI
    exact c8_any_lower_congr (pyLower e.service) rule.matchKws h

/-- A rule whose keyword carries an uppercase letter. -/
def c8Rule : Rule := { key := some "Oil", matchKws := ["Oil"] }

/-- A lowercase event description containing the word oil. -/
def c8Event : Event :=
  { date := "01/01/2023", mileage := some 1000, service := "oil change" }

/-- C8 is false as stated: the keyword Oil, compared case-insensitively
as the claim demands, matches the description oil change, but the code
finds no match because only the description is lowercased. -/
theorem c8_counterexample :
    eventMatches c8Rule c8Event = false ∧
    specMatchesCI c8Rule c8Event = true :=
  ⟨rfl, rfl⟩

/-- An all-lowercase variant of the rule. -/
def c8LowRule : Rule := { key := some "oil", matchKws := ["oil"] }

/-- Witness for the amended C8: on an all-lowercase keyword the code's
test and the case-insensitive test agree. -/
theorem c8_witness :
    (∀ kw ∈ c8LowRule.matchKws, pyLower kw = kw) ∧
    eventMatches c8LowRule c8Event = specMatchesCI c8LowRule c8Event :=
  ⟨by decide, (c8_keyword_filter c8LowRule c8Event).2.2 (by decide)⟩

/-- The oil-change rule of Scenario 1. -/
def c9Rule : Rule :=
  { key := some "Oil Change", matchKws := ["oil"],
    miles_interval := YVal.int 5000, months_interval := YVal.int 6,
    trigger := "earliest" }

/-- The single history event of Scenario 1. -/
def c9Event : Event :=
  { date := "01/01/2023", mileage := some 10000, service := "oil change" }

/-- C9: Scenario 1 end to end through both engines' compute_next_due:
due at 15000 miles and on 2023-07-01 (the due date the source then
formats as text), margins -500 miles and -14 days, status OVERDUE. -/
theorem c9_scenario_one :
    (Camry.compute_next_due [c9Event] 15500 ⟨2023, 7, 15⟩ [c9Rule]).map
      (fun rs => rs.map (fun r =>
        (r.due_mileage, r.due_date, r.miles_until, r.days_until, r.status)))
      = Except.ok [(some 15000, some ⟨2023, 7, 1⟩, some (-500), some (-14),
          "OVERDUE")] ∧
    (CarM.compute_next_due [c9Event] 15500 ⟨2023, 7, 15⟩ [c9Rule]).map
      (fun rs => rs.map (fun r =>
        (r.due_mileage, r.due_date, r.miles_until, r.days_until, r.status)))
      = Except.ok [(some 15000, some ⟨2023, 7, 1⟩, some (-500), some (-14),
          "OVERDUE")] :=
  ⟨rfl, rfl⟩

/-- C10: the CLI evaluator of maintenance_bot.compute marks a task
overdue exactly when a present margin is strictly negative; a margin
of exactly zero (no negative companion, nonnegative thresholds) is not
overdue but due_soon; the GUI engines' evaluator instead classifies a
zero margin as OVERDUE. -/
theorem c10_bot_strict_gui_inclusive
    (t : Bot.Task) (services : List Bot.Service) (ref_mi : Option Int)
    (ref_dt : Date) (th : Bot.Thresholds) (row : Bot.Row)
    (h : Bot.compute t services ref_mi ref_dt th = Except.ok row) :
    (row.overdue = true ↔
      ((∃ m, row.miles_left = some m ∧ m < 0) ∨
       (∃ d, row.days_left = some d ∧ d < 0))) ∧
    ((∀ m, row.miles_left = some m → 0 ≤ m) →
     (∀ d, row.days_left = some d → 0 ≤ d) →
     (row.miles_left = some 0 ∨ row.days_left = some 0) →
     0 ≤ th.miles.getD 500 → 0 ≤ th.days.getD 30 →
     row.overdue = false ∧ row.due_soon = true) ∧
    (∀ (df : List Event) (cur : Int) (today : Date) (rule : Rule)
       (mi mo : Int),
      ((Camry.evalRuleCore df cur today rule mi mo).miles_until = some 0 ∨
       (Camry.evalRuleCore df cur today rule mi mo).days_until = some 0) →
      (Camry.evalRuleCore df cur today rule mi mo).status = "OVERDUE") := by
  simp only [Bot.compute] at h
  cases hap : Bot.anchorDate (Bot.last_service_for_task services t.name) t with
  | error e =>
    rw [hap] at h
    simp at h
  | ok pd =>
    rw [hap] at h
    simp only [Except.ok.injEq] at h
    subst h
    refine ⟨botOverdue_iff _ _, ?_, ?_⟩
    · intro h1 h2 h3 h4 h5
      exact botDueSoon_of_zero _ _ _ _ h1 h2 h3 h4 h5
    · intro df cur today rule mi mo hz
      simp only [Camry.evalRuleCore] at hz ⊢
      refine (status_overdue_iff _ _).2 ?_
      rcases hz with hz | hz
      · exact Or.inl ⟨0, hz, le_refl 0⟩
      · exact Or.inr ⟨0, hz, le_refl 0⟩

/-- An oil task with a 5000-mile interval and no history. -/
def c10Task : Bot.Task := { name := "Oil", interval_miles := some 5000 }

/-- The row maintenance_bot.compute returns for that task at odometer
5000: margin exactly zero, not overdue, due soon. -/
def c10Row : Bot.Row :=
  { task := "Oil", next_due_miles := some 5000, next_due_date := none,
    miles_left := some 0, days_left := none, overdue := false,
    due_soon := true }

/-- Witness for C10: the zero-margin task is due_soon, not overdue. -/
theorem c10_witness :
    Bot.compute c10Task [] (some 5000) ⟨2023, 7, 15⟩ {} = Except.ok c10Row ∧
    c10Row.overdue = false ∧ c10Row.due_soon = true := by
  have h := (c10_bot_strict_gui_inclusive c10Task [] (some 5000)
      ⟨2023, 7, 15⟩ {} c10Row rfl).2.1
    (by intro m hm; simp [c10Row] at hm; omega)
    (by intro d hd; simp [c10Row] at hd)
    (Or.inl rfl) (by decide) (by decide)
  exact ⟨rfl, h.1, h.2⟩
